import Mathlib

/-!
Shallow embedding of the pipeline orchestration core
(`tfx/orchestration/experimental/core/pipeline_ops.py`).

Pure data (pipelines, executions, tasks) is embedded as inductive types;
the metadata store and task queue effects are embedded as an explicit
event log threaded through the operations; fallible code returns
`Except`.  Collaborators that live outside `pipeline_ops.py`
(`pipeline_state`, `task_gen_utils`, `execution_lib`, the task
generators and the metadata store client) are modelled from the spec and
are marked as such in their doc comments.
-/

namespace TfxCore

/-- Status codes (the closed error taxonomy of the status module). -/
inductive Code where
  | OK
  | UNKNOWN
  | NOT_FOUND
  | ALREADY_EXISTS
  | FAILED_PRECONDITION
  | INTERNAL
  | DEADLINE_EXCEEDED
  deriving DecidableEq, Repr

/-- A structured status error carrying a code and a message. -/
structure StatusNotOkError where
  code : Code
  message : String
  deriving DecidableEq, Repr

/-- Exceptions as seen by the `_to_status_not_ok_error` wrapper: either an
already-structured status error, or any other exception carrying its
`str(e)` message. -/
inductive PyExn where
  | statusNotOk (e : StatusNotOkError)
  | other (message : String)
  deriving DecidableEq, Repr

/-- `last_known_state` values of a PipelineExecution / NodeExecution. -/
inductive ExecState where
  | NEW
  | RUNNING
  | COMPLETE
  | CANCELED
  | FAILED
  deriving DecidableEq, Repr

/-- A durable execution record in the metadata store. -/
structure Execution where
  id : Nat
  last_known_state : ExecState
  deriving DecidableEq, Repr

/-- Modelled from the spec: `execution_lib.is_execution_active` is not under
src/; the spec defines "active" as `last_known_state` in NEW or RUNNING. -/
def is_execution_active (e : Execution) : Bool :=
  e.last_known_state == .NEW || e.last_known_state == .RUNNING

/-- Pipeline execution modes of the pipeline IR proto (SYNC, ASYNC, and the
unspecified default value). -/
inductive ExecutionMode where
  | SYNC
  | ASYNC
  | UNSPECIFIED
  deriving DecidableEq, Repr

/-- A node of the pipeline IR.  The `feasible` field carries the verdict of
`task_gen_utils.is_feasible_node` (whether the node has a runnable
executor-backed role), which is outside src/. -/
structure PipelineNode where
  node_info_id : String
  feasible : Bool
  deriving DecidableEq, Repr

/-- The pipeline IR: id, execution mode and nodes. -/
structure Pipeline where
  pipeline_id : String
  execution_mode : ExecutionMode
  nodes : List PipelineNode
  deriving DecidableEq, Repr

/-- Unique id of a node: pipeline id paired with node id. -/
structure NodeUid where
  pipeline_id : String
  node_id : String
  deriving DecidableEq, Repr

def NodeUid.from_pipeline_node (p : Pipeline) (n : PipelineNode) : NodeUid :=
  ⟨p.pipeline_id, n.node_info_id⟩

/-- Modelled from the spec: `pstate.get_all_pipeline_nodes` (pipeline_state.py
is not under src/); returns every node of the pipeline IR. -/
def get_all_pipeline_nodes (p : Pipeline) : List PipelineNode :=
  p.nodes

/-- Modelled from the spec: `PipelineState` (pipeline_state.py is not under
src/) is a metadata-backed view of one pipeline: its IR, its
PipelineExecution, the pipeline-wide stop flag and the per-node stop flags
kept in the execution's property bag. -/
structure PipelineState where
  pipeline : Pipeline
  execution : Execution
  stop_initiated : Bool
  stop_initiated_node_ids : List String
  deriving DecidableEq, Repr

/-- Modelled from the spec: reads the pipeline-wide stop flag. -/
def PipelineState.is_stop_initiated (ps : PipelineState) : Bool :=
  ps.stop_initiated

/-- Modelled from the spec: reads the per-node stop flag. -/
def PipelineState.is_node_stop_initiated (ps : PipelineState) (uid : NodeUid) : Bool :=
  ps.stop_initiated_node_ids.contains uid.node_id

/-- Modelled from the spec: `initiate_stop` sets the pipeline-wide stop flag. -/
def PipelineState.initiate_stop (ps : PipelineState) : PipelineState :=
  { ps with stop_initiated := true }

/-- Modelled from the spec: `initiate_node_start` clears the per-node stop
flag for the named node. -/
def PipelineState.initiate_node_start (ps : PipelineState) (uid : NodeUid) : PipelineState :=
  { ps with stop_initiated_node_ids :=
      ps.stop_initiated_node_ids.filter (fun i => i ≠ uid.node_id) }

/-- Task variants placed on the task queue. -/
inductive PipelineTask where
  | execNodeTask (node_uid : NodeUid) (is_cancelled : Bool)
  | cancelNodeTask (node_uid : NodeUid)
  deriving DecidableEq, Repr

/-- Deterministic task ids, derived from the node uid. -/
inductive TaskId where
  | execNodeTaskId (node_uid : NodeUid)
  | cancelNodeTaskId (node_uid : NodeUid)
  deriving DecidableEq, Repr

/-- Modelled from the spec: `task_lib.exec_node_task_id_from_pipeline_node`
(task.py is not under src/); the deterministic ExecNodeTask id of a node. -/
def exec_node_task_id_from_pipeline_node (p : Pipeline) (n : PipelineNode) : TaskId :=
  .execNodeTaskId (NodeUid.from_pipeline_node p n)

/-- The id of a task, used as the queue key. -/
def PipelineTask.task_id : PipelineTask → TaskId
  | .execNodeTask uid _ => .execNodeTaskId uid
  | .cancelNodeTask uid => .cancelNodeTaskId uid

/-- The task generator instantiated for an active pipeline: either the SYNC
generator, or the ASYNC generator constructed with the set of ids of
stop-initiated nodes. -/
inductive GeneratorChoice where
  | sync (pipeline : Pipeline)
  | async (pipeline : Pipeline) (stop_initiated_node_ids : List String)
  deriving DecidableEq, Repr

/-- Observable effects of a tick on the metadata store and the task queue:
`putExecution` is a `mlmd_handle.store.put_executions` write,
`enqueueTask` a `task_queue.enqueue`, and `invokeGenerator` the
instantiation of a task generator. -/
inductive Event where
  | putExecution (e : Execution)
  | enqueueTask (t : PipelineTask)
  | invokeGenerator (g : GeneratorChoice)
  deriving DecidableEq, Repr

/-- The mutable orchestration state threaded through a tick: the ids
currently in the task queue plus the ordered log of effects. -/
structure OrchSt where
  queue_ids : List TaskId
  log : List Event
  deriving DecidableEq, Repr

/-- `task_queue.contains_task_id`. -/
def OrchSt.contains_task_id (st : OrchSt) (tid : TaskId) : Bool :=
  st.queue_ids.contains tid

/-- `task_queue.enqueue`: the task id becomes visible in the queue and the
enqueue is logged. -/
def OrchSt.enqueue (st : OrchSt) (t : PipelineTask) : OrchSt :=
  { queue_ids := st.queue_ids ++ [t.task_id], log := st.log ++ [.enqueueTask t] }

/-- `mlmd_handle.store.put_executions([e])`: the metadata-store write is
logged. -/
def OrchSt.put_execution (st : OrchSt) (e : Execution) : OrchSt :=
  { st with log := st.log ++ [.putExecution e] }

/-- The read-only environment of a tick: the outcome of loading each
enumerated OrchestratorContext, the node executions readable in the
metadata store, the behaviour of the (external) task generators, and the
activity over time of each execution record (for the polling wait). -/
structure Env where
  contexts : List (Except StatusNotOkError PipelineState)
  nodeExecutions : String → List Execution
  generate : GeneratorChoice → List TaskId → List PipelineTask
  execActiveAt : Nat → ℚ → Bool

/-- Modelled from the spec: `task_gen_utils.is_feasible_node` is not under
src/; a node is feasible when it has a runnable executor-backed role. -/
def is_feasible_node (n : PipelineNode) : Bool :=
  n.feasible

/-- Modelled from the spec: `task_gen_utils.get_executions` is not under
src/; reads the node's executions from the metadata store. -/
def get_executions (env : Env) (n : PipelineNode) : List Execution :=
  env.nodeExecutions n.node_info_id

/-- Modelled from the spec: `task_gen_utils.generate_task_from_active_execution`
is not under src/; if exactly one of the given executions is active, returns
a synthetic ExecNodeTask for the node with the given cancellation flag. -/
def generate_task_from_active_execution (p : Pipeline) (n : PipelineNode)
    (executions : List Execution) (is_cancelled : Bool) : Option PipelineTask :=
  if (executions.filter is_execution_active).length == 1 then
    some (.execNodeTask (NodeUid.from_pipeline_node p n) is_cancelled)
  else
    none

/-- `_maybe_enqueue_cancellation_task`: if the node is not feasible, do
nothing; if the queue holds the node's ExecNodeTask id, enqueue a
CancelNodeTask; otherwise, if the node has an active execution in the
metadata store, enqueue an ExecNodeTask with is_cancelled set.  Returns
whether a cancellation task was enqueued. -/
def maybe_enqueue_cancellation_task (env : Env) (pipeline : Pipeline)
    (node : PipelineNode) (st : OrchSt) : Bool × OrchSt :=
  if !is_feasible_node node then
    (false, st)
  else
    let exec_node_task_id := exec_node_task_id_from_pipeline_node pipeline node
    if st.contains_task_id exec_node_task_id then
      (true, st.enqueue (.cancelNodeTask (NodeUid.from_pipeline_node pipeline node)))
    else
      match generate_task_from_active_execution pipeline node (get_executions env node) true with
      | some exec_node_task => (true, st.enqueue exec_node_task)
      | none => (false, st)

/-- The per-node loop of `_process_stop_initiated_pipelines`: calls
`maybe_enqueue_cancellation_task` on every node in order, recording whether
any call returned true. -/
def sweep_cancellation_tasks (env : Env) (pipeline : Pipeline) :
    List PipelineNode → OrchSt → Bool × OrchSt
  | [], st => (false, st)
  | node :: rest, st =>
    let r := maybe_enqueue_cancellation_task env pipeline node st
    let b := sweep_cancellation_tasks env pipeline rest r.2
    (r.1 || b.1, b.2)

/-- The body of `_process_stop_initiated_pipelines` for one pipeline: sweep
all IR nodes, and if no cancellation task was enqueued mark the
PipelineExecution CANCELED in the metadata store. -/
def process_stop_initiated_pipeline (env : Env) (ps : PipelineState) (st : OrchSt) : OrchSt :=
  let r := sweep_cancellation_tasks env ps.pipeline (get_all_pipeline_nodes ps.pipeline) st
  if !r.1 then
    r.2.put_execution { ps.execution with last_known_state := .CANCELED }
  else
    r.2

/-- `_process_stop_initiated_pipelines`. -/
def process_stop_initiated_pipelines (env : Env) (pipeline_states : List PipelineState)
    (st : OrchSt) : OrchSt :=
  pipeline_states.foldl (fun s ps => process_stop_initiated_pipeline env ps s) st

/-- `_get_stop_initiated_nodes`: the IR nodes whose per-node stop flag is
set. -/
def get_stop_initiated_nodes (ps : PipelineState) : List PipelineNode :=
  (get_all_pipeline_nodes ps.pipeline).filter
    (fun n => ps.is_node_stop_initiated (NodeUid.from_pipeline_node ps.pipeline n))

/-- The cancellation sweep over stop-initiated nodes inside
`_process_active_pipelines` (boolean results ignored). -/
def sweep_stop_initiated_nodes (env : Env) (pipeline : Pipeline)
    (nodes : List PipelineNode) (st : OrchSt) : OrchSt :=
  nodes.foldl (fun s n => (maybe_enqueue_cancellation_task env pipeline n s).2) st

/-- Enqueue each generated task in order. -/
def enqueue_all (st : OrchSt) (tasks : List PipelineTask) : OrchSt :=
  tasks.foldl OrchSt.enqueue st

/-- The NEW-to-RUNNING transition of `_process_active_pipelines`: executions
whose `last_known_state` is not already RUNNING are durably rewritten as
RUNNING in the metadata store. -/
def update_to_running (ps : PipelineState) (st : OrchSt) : OrchSt :=
  if ps.execution.last_known_state != .RUNNING then
    st.put_execution { ps.execution with last_known_state := .RUNNING }
  else
    st

/-- The FAILED_PRECONDITION message for unsupported execution modes. -/
def unsupported_mode_message : String :=
  "Only SYNC and ASYNC pipeline execution modes supported"

/-- The generator dispatch of `_process_active_pipelines`: SYNC pipelines get
the SYNC generator, ASYNC pipelines get the ASYNC generator constructed
with the set of stop-initiated node ids, and any other execution mode
fails with FAILED_PRECONDITION. -/
def generator_for (ps : PipelineState) : Except PyExn GeneratorChoice :=
  match ps.pipeline.execution_mode with
  | .SYNC => .ok (.sync ps.pipeline)
  | .ASYNC => .ok (.async ps.pipeline
      (((get_stop_initiated_nodes ps).map (fun n => n.node_info_id)).dedup))
  | .UNSPECIFIED => .error (.statusNotOk ⟨.FAILED_PRECONDITION, unsupported_mode_message⟩)

/-- Instantiating a task generator, recorded in the log. -/
def invoke_generator (g : GeneratorChoice) (st : OrchSt) : OrchSt :=
  { st with log := st.log ++ [.invokeGenerator g] }

/-- The body of `_process_active_pipelines` for one pipeline: assert the
execution is active (NEW or RUNNING), durably transition NEW to RUNNING,
sweep cancellation tasks for stop-initiated nodes, instantiate the
generator for the pipeline's execution mode (unknown modes fail
FAILED_PRECONDITION), and enqueue the generated tasks in order.  A failed
assert raises a non-status exception. -/
def process_active_pipeline (env : Env) (ps : PipelineState) (st : OrchSt) :
    Except PyExn OrchSt :=
  if !(ps.execution.last_known_state == .NEW || ps.execution.last_known_state == .RUNNING) then
    .error (.other "AssertionError")
  else
    let st1 := update_to_running ps st
    let st2 := sweep_stop_initiated_nodes env ps.pipeline (get_stop_initiated_nodes ps) st1
    match generator_for ps with
    | .error e => .error e
    | .ok g =>
      let st3 := invoke_generator g st2
      .ok (enqueue_all st3 (env.generate g st3.queue_ids))

/-- `_process_active_pipelines`. -/
def process_active_pipelines (env : Env) :
    List PipelineState → OrchSt → Except PyExn OrchSt
  | [], st => .ok st
  | ps :: rest, st => do
    let st1 ← process_active_pipeline env ps st
    process_active_pipelines env rest st1

/-- `_get_pipeline_states`: attempt `load_from_orchestrator_context` on each
enumerated context; NOT_FOUND failures are skipped, any other status error
aborts. -/
def get_pipeline_states :
    List (Except StatusNotOkError PipelineState) → Except PyExn (List PipelineState)
  | [] => .ok []
  | c :: rest =>
    match c with
    | .error e =>
      if e.code == .NOT_FOUND then
        get_pipeline_states rest
      else
        .error (.statusNotOk e)
    | .ok ps => do
      let r ← get_pipeline_states rest
      .ok (ps :: r)

/-- The INTERNAL message raised by the classification loop. -/
def neither_message : String :=
  "Found pipeline which is neither active nor stop-initiated."

/-- The classification loop of `generate_tasks`: stop-initiated pipelines
first, else active (NEW or RUNNING) pipelines, else fail INTERNAL.  Returns
(stop-initiated, active) in scan order. -/
def classify_pipeline_states :
    List PipelineState → Except PyExn (List PipelineState × List PipelineState)
  | [] => .ok ([], [])
  | ps :: rest =>
    if ps.is_stop_initiated then do
      let r ← classify_pipeline_states rest
      .ok (ps :: r.1, r.2)
    else if is_execution_active ps.execution then do
      let r ← classify_pipeline_states rest
      .ok (r.1, ps :: r.2)
    else
      .error (.statusNotOk ⟨.INTERNAL, neither_message⟩)

/-- `_to_status_not_ok_error`: structured status errors are re-raised
unchanged; any other exception is re-packaged as UNKNOWN with its message
preserved. -/
def to_status_not_ok_error {α : Type} (fn_name : String) :
    Except PyExn α → Except StatusNotOkError α
  | .ok a => .ok a
  | .error (.statusNotOk e) => .error e
  | .error (.other msg) =>
    .error ⟨.UNKNOWN, "`" ++ fn_name ++ "` error: " ++ msg⟩

/-- The body of `generate_tasks`: scan, classify, process stop-initiated
pipelines, then process active pipelines. -/
def generate_tasks_inner (env : Env) (st : OrchSt) : Except PyExn OrchSt := do
  let pipeline_states ← get_pipeline_states env.contexts
  if pipeline_states.isEmpty then
    .ok st
  else do
    let r ← classify_pipeline_states pipeline_states
    let st1 := process_stop_initiated_pipelines env r.1 st
    process_active_pipelines env r.2 st1

/-- `generate_tasks`, wrapped by `_to_status_not_ok_error`. -/
def generate_tasks (env : Env) (st : OrchSt) : Except StatusNotOkError OrchSt :=
  to_status_not_ok_error "generate_tasks" (generate_tasks_inner env st)

/-- The timeout message of `_wait_for_inactivation`. -/
def timeout_message : String :=
  "Timed out waiting for execution inactivation."

/-- The polling loop of `_wait_for_inactivation`.  `active_at t` is the
activity of the watched execution record in the metadata store at time `t`
(in seconds); time advances by the sleep at the end of each iteration.
`fuel` bounds the number of loop iterations of this embedding; `none`
means the bound was insufficient. -/
def wait_poll_loop (active_at : ℚ → Bool) (end_time polling_interval_secs : ℚ) :
    ℚ → ℕ → Option (Except PyExn Unit)
  | _, 0 => none
  | now, fuel + 1 =>
    if end_time - now > 0 then
      if !active_at now then
        some (.ok ())
      else
        wait_poll_loop active_at end_time polling_interval_secs
          (now + max 0 (min polling_interval_secs (end_time - now))) fuel
    else
      some (.error (.statusNotOk ⟨.DEADLINE_EXCEEDED, timeout_message⟩))

/-- The body of `_wait_for_inactivation`: poll every
`min(10, timeout_secs / 4)` seconds until the record is inactive or the
deadline `start_time + timeout_secs` passes. -/
def wait_for_inactivation_inner (active_at : ℚ → Bool) (start_time timeout_secs : ℚ)
    (fuel : ℕ) : Option (Except PyExn Unit) :=
  let polling_interval_secs := min 10 (timeout_secs / 4)
  let end_time := start_time + timeout_secs
  wait_poll_loop active_at end_time polling_interval_secs start_time fuel

/-- `_wait_for_inactivation`, wrapped by `_to_status_not_ok_error`. -/
def wait_for_inactivation (active_at : ℚ → Bool) (start_time timeout_secs : ℚ)
    (fuel : ℕ) : Option (Except StatusNotOkError Unit) :=
  (wait_for_inactivation_inner active_at start_time timeout_secs fuel).map
    (to_status_not_ok_error "_wait_for_inactivation")

/-- The body of `stop_node`, given the already-loaded PipelineState of the
parent pipeline.  The first component records whether
`initiate_node_stop` was called (it is called exactly when the node-id
filter finds exactly one IR node, before the executions are read).  The
second component: INTERNAL unless exactly one IR node matches the node id;
immediate success when no execution of that node is active; INTERNAL when
more than one is active; otherwise the result of waiting (outside the
lock) for the single active execution to become inactive. -/
def stop_node_inner (env : Env) (ps : PipelineState) (node_uid : NodeUid)
    (start_time timeout_secs : ℚ) (fuel : ℕ) : Bool × Option (Except PyExn Unit) :=
  let nodes := get_all_pipeline_nodes ps.pipeline
  let filtered_nodes := nodes.filter (fun n => n.node_info_id == node_uid.node_id)
  match filtered_nodes with
  | [node] =>
    let executions := get_executions env node
    let active_executions := executions.filter is_execution_active
    match active_executions with
    | [] => (true, some (.ok ()))
    | [e] =>
      (true, wait_for_inactivation_inner (env.execActiveAt e.id) start_time timeout_secs fuel)
    | _ =>
      (true, some (.error (.statusNotOk ⟨.INTERNAL,
        "Unexpected multiple active executions for node"⟩)))
  | _ =>
    (false, some (.error (.statusNotOk ⟨.INTERNAL,
      "stop_node operation failed, unable to find node to stop"⟩)))

/-- `stop_node`, wrapped by `_to_status_not_ok_error`. -/
def stop_node (env : Env) (ps : PipelineState) (node_uid : NodeUid)
    (start_time timeout_secs : ℚ) (fuel : ℕ) :
    Bool × Option (Except StatusNotOkError Unit) :=
  let r := stop_node_inner env ps node_uid start_time timeout_secs fuel
  (r.1, r.2.map (to_status_not_ok_error "stop_node"))

/-- The body of `initiate_pipeline_start`: acquire `PipelineState.new`
(external to src/, so its outcome is a parameter) and return the resulting
state. -/
def initiate_pipeline_start_inner (new_result : Except PyExn PipelineState) :
    Except PyExn PipelineState :=
  new_result

/-- `initiate_pipeline_start`, wrapped by `_to_status_not_ok_error`. -/
def initiate_pipeline_start (new_result : Except PyExn PipelineState) :
    Except StatusNotOkError PipelineState :=
  to_status_not_ok_error "initiate_pipeline_start" (initiate_pipeline_start_inner new_result)

/-- The body of `stop_pipeline`: load the PipelineState (outcome is a
parameter, the loader being external to src/), set the pipeline-wide stop
flag, then wait outside the lock for the PipelineExecution to become
inactive. -/
def stop_pipeline_inner (env : Env) (load_result : Except PyExn PipelineState)
    (start_time timeout_secs : ℚ) (fuel : ℕ) : Option (Except PyExn Unit) :=
  match load_result with
  | .error e => some (.error e)
  | .ok ps =>
    let ps1 := ps.initiate_stop
    wait_for_inactivation_inner (env.execActiveAt ps1.execution.id) start_time timeout_secs fuel

/-- `stop_pipeline`, wrapped by `_to_status_not_ok_error`. -/
def stop_pipeline (env : Env) (load_result : Except PyExn PipelineState)
    (start_time timeout_secs : ℚ) (fuel : ℕ) : Option (Except StatusNotOkError Unit) :=
  (stop_pipeline_inner env load_result start_time timeout_secs fuel).map
    (to_status_not_ok_error "stop_pipeline")

/-- The body of `initiate_node_start`: load the PipelineState (outcome is a
parameter) and clear the per-node stop flag. -/
def initiate_node_start_inner (load_result : Except PyExn PipelineState)
    (node_uid : NodeUid) : Except PyExn PipelineState :=
  match load_result with
  | .error e => .error e
  | .ok ps => .ok (ps.initiate_node_start node_uid)

/-- `initiate_node_start`, wrapped by `_to_status_not_ok_error`. -/
def initiate_node_start (load_result : Except PyExn PipelineState)
    (node_uid : NodeUid) : Except StatusNotOkError PipelineState :=
  to_status_not_ok_error "initiate_node_start" (initiate_node_start_inner load_result node_uid)

/-! Concrete sample inputs, used to evaluate the operations on closed data. -/

/-- A sample environment: nothing in the store, generators produce nothing. -/
def env0 : Env :=
  ⟨[], fun _ => [], fun _ _ => [], fun _ _ => false⟩

/-- A sample initial orchestration state: empty queue, empty log. -/
def st0 : OrchSt :=
  ⟨[], []⟩

/-- A sample ASYNC pipeline IR with no nodes. -/
def pipe0 : Pipeline :=
  ⟨"pipeline1", .ASYNC, []⟩

/-- A sample stop-initiated pipeline state over `pipe0`. -/
def ps0 : PipelineState :=
  ⟨pipe0, ⟨1, .RUNNING⟩, true, []⟩

/-- A sample infeasible node. -/
def node_infeasible : PipelineNode :=
  ⟨"Trainer", false⟩

/-- A sample SYNC pipeline IR with no nodes. -/
def pipe4 : Pipeline :=
  ⟨"pipeline1", .SYNC, []⟩

/-- A sample active pipeline state over `pipe4` whose execution is NEW. -/
def ps4 : PipelineState :=
  ⟨pipe4, ⟨1, .NEW⟩, false, []⟩

/-- The orchestration state produced by processing `ps4` from `st0`:
the NEW-to-RUNNING write followed by the SYNC generator invocation. -/
def st4w : OrchSt :=
  ⟨[], [.putExecution ⟨1, .RUNNING⟩, .invokeGenerator (.sync pipe4)]⟩

/-- A sample pipeline state that is neither active nor stop-initiated. -/
def ps_invalid : PipelineState :=
  ⟨pipe0, ⟨1, .COMPLETE⟩, false, []⟩

/-- A sample environment whose only context loads to `ps_invalid`. -/
def env10 : Env :=
  ⟨[.ok ps_invalid], fun _ => [], fun _ _ => [], fun _ _ => false⟩

/-! ## Helper lemmas -/

/-- `maybe_enqueue_cancellation_task` only appends enqueue events to the
log. -/
theorem maybe_enqueue_log_extension (env : Env) (pipeline : Pipeline)
    (node : PipelineNode) (st : OrchSt) :
    ∃ new, ((maybe_enqueue_cancellation_task env pipeline node st).2).log = st.log ++ new ∧
      ∀ e ∈ new, ∃ t, e = Event.enqueueTask t := by
  unfold maybe_enqueue_cancellation_task
  by_cases hf : is_feasible_node node
  · simp only [hf, Bool.not_true, Bool.false_eq_true, if_false]
    by_cases hq : st.contains_task_id (exec_node_task_id_from_pipeline_node pipeline node)
    · refine ⟨[Event.enqueueTask (.cancelNodeTask (NodeUid.from_pipeline_node pipeline node))],
        ?_, ?_⟩
      · simp [hq, OrchSt.enqueue]
      · intro e he
        simp only [List.mem_singleton] at he
        exact ⟨_, he⟩
    · simp only [Bool.not_eq_true] at hq
      simp only [hq, Bool.false_eq_true, if_false]
      cases hg : generate_task_from_active_execution pipeline node (get_executions env node) true with
      | none => exact ⟨[], by simp, by simp⟩
      | some t =>
        refine ⟨[Event.enqueueTask t], by simp [OrchSt.enqueue], ?_⟩
        intro e he
        simp only [List.mem_singleton] at he
        exact ⟨_, he⟩
  · simp only [Bool.not_eq_true] at hf
    simp only [hf, Bool.not_false, if_true]
    exact ⟨[], by simp, by simp⟩

/-- The stop-initiated sweep only appends enqueue events to the log. -/
theorem sweep_cancellation_log_extension (env : Env) (pipeline : Pipeline) :
    ∀ (nodes : List PipelineNode) (st : OrchSt),
      ∃ new, ((sweep_cancellation_tasks env pipeline nodes st).2).log = st.log ++ new ∧
        ∀ e ∈ new, ∃ t, e = Event.enqueueTask t := by
  intro nodes
  induction nodes with
  | nil => intro st; exact ⟨[], by simp [sweep_cancellation_tasks], by simp⟩
  | cons node rest ih =>
    intro st
    obtain ⟨n1, h1, honly1⟩ := maybe_enqueue_log_extension env pipeline node st
    obtain ⟨n2, h2, honly2⟩ := ih (maybe_enqueue_cancellation_task env pipeline node st).2
    refine ⟨n1 ++ n2, ?_, ?_⟩
    · simp only [sweep_cancellation_tasks]
      rw [h2, h1, List.append_assoc]
    · intro e he
      rcases List.mem_append.mp he with h | h
      · exact honly1 e h
      · exact honly2 e h

/-- The active-pipeline cancellation sweep only appends enqueue events. -/
theorem sweep_stop_initiated_log_extension (env : Env) (pipeline : Pipeline) :
    ∀ (nodes : List PipelineNode) (st : OrchSt),
      ∃ new, (sweep_stop_initiated_nodes env pipeline nodes st).log = st.log ++ new ∧
        ∀ e ∈ new, ∃ t, e = Event.enqueueTask t := by
  intro nodes
  induction nodes with
  | nil => intro st; exact ⟨[], by simp [sweep_stop_initiated_nodes], by simp⟩
  | cons node rest ih =>
    intro st
    obtain ⟨n1, h1, honly1⟩ := maybe_enqueue_log_extension env pipeline node st
    obtain ⟨n2, h2, honly2⟩ := ih (maybe_enqueue_cancellation_task env pipeline node st).2
    refine ⟨n1 ++ n2, ?_, ?_⟩
    · simp only [sweep_stop_initiated_nodes, List.foldl_cons] at h2 ⊢
      rw [h2, h1, List.append_assoc]
    · intro e he
      rcases List.mem_append.mp he with h | h
      · exact honly1 e h
      · exact honly2 e h

/-- Enqueuing a batch of tasks only appends enqueue events. -/
theorem enqueue_all_log_extension :
    ∀ (tasks : List PipelineTask) (st : OrchSt),
      ∃ new, (enqueue_all st tasks).log = st.log ++ new ∧
        ∀ e ∈ new, ∃ t, e = Event.enqueueTask t := by
  intro tasks
  induction tasks with
  | nil => intro st; exact ⟨[], by simp [enqueue_all], by simp⟩
  | cons t rest ih =>
    intro st
    obtain ⟨n2, h2, honly2⟩ := ih (st.enqueue t)
    refine ⟨Event.enqueueTask t :: n2, ?_, ?_⟩
    · simp only [enqueue_all, List.foldl_cons] at h2 ⊢
      rw [h2]
      simp [OrchSt.enqueue]
    · intro e he
      rcases List.mem_cons.mp he with h | h
      · exact ⟨t, h⟩
      · exact honly2 e h

/-- Reduction of `Except` bind on a success. -/
theorem except_bind_ok {α β ε : Type} (a : α) (f : α → Except ε β) :
    (Except.ok a >>= f : Except ε β) = f a := rfl

/-- Reduction of `Except` bind on an error. -/
theorem except_bind_error {α β ε : Type} (e : ε) (f : α → Except ε β) :
    (Except.error e >>= f : Except ε β) = Except.error e := rfl

/-- When every pipeline state is stop-initiated or active, classification
succeeds and splits the list by the stop flag first, execution activity
second. -/
theorem classify_ok_of_valid : ∀ (pss : List PipelineState),
    (∀ ps ∈ pss, ps.is_stop_initiated = true ∨ is_execution_active ps.execution = true) →
    classify_pipeline_states pss =
      .ok (pss.filter (fun ps => ps.is_stop_initiated),
           pss.filter (fun ps => !ps.is_stop_initiated && is_execution_active ps.execution)) := by
  intro pss
  induction pss with
  | nil => intro _; rfl
  | cons ps rest ih =>
    intro hall
    have hrest := ih (fun p hp => hall p (List.mem_cons_of_mem _ hp))
    by_cases hs : ps.is_stop_initiated
    · simp [classify_pipeline_states, hs, hrest, List.filter_cons, except_bind_ok]
    · have ha : is_execution_active ps.execution = true := by
        rcases hall ps (List.mem_cons_self _ _) with h | h
        · exact absurd h hs
        · exact h
      simp only [Bool.not_eq_true] at hs
      simp [classify_pipeline_states, hs, ha, hrest, List.filter_cons, except_bind_ok]

/-- When some pipeline state is neither stop-initiated nor active,
classification fails with INTERNAL. -/
theorem classify_error_of_invalid : ∀ (pss : List PipelineState),
    (∃ ps ∈ pss, ps.is_stop_initiated = false ∧ is_execution_active ps.execution = false) →
    classify_pipeline_states pss = .error (.statusNotOk ⟨Code.INTERNAL, neither_message⟩) := by
  intro pss
  induction pss with
  | nil => intro h; simp at h
  | cons ps rest ih =>
    intro h
    rcases h with ⟨p, hp, hinv⟩
    rcases List.mem_cons.mp hp with rfl | hp'
    · simp [classify_pipeline_states, hinv.1, hinv.2]
    · have hrest := ih ⟨p, hp', hinv⟩
      by_cases hs : ps.is_stop_initiated
      · simp [classify_pipeline_states, hs, hrest, except_bind_error]
      · by_cases ha : is_execution_active ps.execution
        · simp only [Bool.not_eq_true] at hs
          simp [classify_pipeline_states, hs, ha, hrest, except_bind_error]
        · simp only [Bool.not_eq_true] at hs ha
          simp [classify_pipeline_states, hs, ha]

/-- Every pipeline state classified as active has an active execution. -/
theorem classify_active_sound : ∀ (pss : List PipelineState)
    (r : List PipelineState × List PipelineState),
    classify_pipeline_states pss = .ok r →
    ∀ ps ∈ r.2, is_execution_active ps.execution = true := by
  intro pss
  induction pss with
  | nil =>
    intro r h
    simp only [classify_pipeline_states, Except.ok.injEq] at h
    subst h
    intro ps hps
    simp at hps
  | cons p rest ih =>
    intro r h
    by_cases hs : p.is_stop_initiated
    · simp only [classify_pipeline_states, hs, if_true] at h
      cases hrest : classify_pipeline_states rest with
      | error e => rw [hrest] at h; simp [except_bind_error] at h
      | ok r' =>
        rw [hrest] at h
        simp only [except_bind_ok, Except.ok.injEq] at h
        subst h
        exact ih r' hrest
    · by_cases ha : is_execution_active p.execution
      · simp only [classify_pipeline_states] at h
        rw [if_neg hs, if_pos ha] at h
        cases hrest : classify_pipeline_states rest with
        | error e => rw [hrest] at h; simp [except_bind_error] at h
        | ok r' =>
          rw [hrest] at h
          simp only [except_bind_ok, Except.ok.injEq] at h
          subst h
          intro ps hps
          rcases List.mem_cons.mp hps with rfl | hps'
          · exact ha
          · exact ih r' hrest ps hps'
      · simp only [Bool.not_eq_true] at hs ha
        simp [classify_pipeline_states, hs, ha] at h

/-- Scanning a context list whose load failures are all NOT_FOUND skips the
failures and returns the successfully loaded pipeline states. -/
theorem gps_ok_of_all_not_found :
    ∀ (contexts : List (Except StatusNotOkError PipelineState)),
    (∀ c ∈ contexts, ∀ err, c = Except.error err → err.code = Code.NOT_FOUND) →
    get_pipeline_states contexts = .ok (contexts.filterMap Except.toOption) := by
  intro cs
  induction cs with
  | nil => intro _; rfl
  | cons c rest ih =>
    intro hall
    have hrest := ih (fun x hx => hall x (List.mem_cons_of_mem _ hx))
    cases c with
    | error err =>
      have hcode : err.code = Code.NOT_FOUND := hall _ (List.mem_cons_self _ _) err rfl
      simp [get_pipeline_states, hcode, hrest, List.filterMap_cons, Except.toOption]
    | ok ps =>
      simp [get_pipeline_states, hrest, List.filterMap_cons, Except.toOption, except_bind_ok]

/-- Scanning aborts with the first load failure whose code is not NOT_FOUND. -/
theorem gps_abort_on_other :
    ∀ (pre : List (Except StatusNotOkError PipelineState)) (e : StatusNotOkError)
      (suf : List (Except StatusNotOkError PipelineState)),
    (∀ c ∈ pre, ∀ err, c = Except.error err → err.code = Code.NOT_FOUND) →
    e.code ≠ Code.NOT_FOUND →
    get_pipeline_states (pre ++ Except.error e :: suf) = .error (.statusNotOk e) := by
  intro pre
  induction pre with
  | nil =>
    intro e suf _ hne
    simp [get_pipeline_states, hne]
  | cons c rest ih =>
    intro e suf hall hne
    have hrest := ih e suf (fun x hx => hall x (List.mem_cons_of_mem _ hx)) hne
    cases c with
    | error err =>
      have hcode : err.code = Code.NOT_FOUND := hall _ (List.mem_cons_self _ _) err rfl
      simp [get_pipeline_states, hcode, hrest]
    | ok ps =>
      simp [get_pipeline_states, hrest, except_bind_error]

/-! ## Claim theorems -/

/-- C1: For every stop-initiated pipeline processed by `generate_tasks`, the
tick iterates every IR node calling `maybe_enqueue_cancellation_task`; if no
node's call returned true, the tick writes the PipelineExecution's
`last_known_state` as CANCELED to the metadata store, and if at least one
call returned true the execution state is left unchanged by this sweep
(only task enqueues are added). -/
theorem stop_initiated_sweep_spec (env : Env) (ps : PipelineState) (st : OrchSt)
    (b : Bool) (st1 : OrchSt)
    (h : sweep_cancellation_tasks env ps.pipeline (get_all_pipeline_nodes ps.pipeline) st
      = (b, st1)) :
    (b = false →
      process_stop_initiated_pipeline env ps st =
        st1.put_execution { ps.execution with last_known_state := ExecState.CANCELED }) ∧
    (b = true →
      process_stop_initiated_pipeline env ps st = st1 ∧
      ∀ e ∈ st1.log.drop st.log.length, ∃ t, e = Event.enqueueTask t) := by
  constructor
  · intro hb
    subst hb
    simp [process_stop_initiated_pipeline, h]
  · intro hb
    subst hb
    refine ⟨by simp [process_stop_initiated_pipeline, h], ?_⟩
    obtain ⟨new, hlog, honly⟩ :=
      sweep_cancellation_log_extension env ps.pipeline (get_all_pipeline_nodes ps.pipeline) st
    rw [h] at hlog
    intro e he
    rw [hlog, List.drop_left] at he
    exact honly e he

/-- C1 witness: a stop-initiated pipeline with no nodes enqueues nothing and
its execution is written CANCELED. -/
theorem stop_initiated_sweep_witness :
    process_stop_initiated_pipeline env0 ps0 st0 =
      OrchSt.put_execution st0 { ps0.execution with last_known_state := ExecState.CANCELED } :=
  (stop_initiated_sweep_spec env0 ps0 st0 false st0 rfl).1 rfl

/-- C2: `maybe_enqueue_cancellation_task` returns false without enqueuing
anything when the node is not feasible; else if the queue contains the
node's deterministic ExecNodeTask id it enqueues exactly one CancelNodeTask
and returns true; else if the node's executions yield exactly one active
execution it enqueues exactly one ExecNodeTask with is_cancelled set and
returns true; in all remaining cases it returns false and enqueues
nothing. -/
theorem maybe_enqueue_cancellation_task_spec (env : Env) (pipeline : Pipeline)
    (node : PipelineNode) (st : OrchSt) :
    (is_feasible_node node = false →
      maybe_enqueue_cancellation_task env pipeline node st = (false, st)) ∧
    (is_feasible_node node = true →
      st.contains_task_id (exec_node_task_id_from_pipeline_node pipeline node) = true →
      maybe_enqueue_cancellation_task env pipeline node st =
        (true, st.enqueue (.cancelNodeTask (NodeUid.from_pipeline_node pipeline node)))) ∧
    (is_feasible_node node = true →
      st.contains_task_id (exec_node_task_id_from_pipeline_node pipeline node) = false →
      ((get_executions env node).filter is_execution_active).length = 1 →
      maybe_enqueue_cancellation_task env pipeline node st =
        (true, st.enqueue (.execNodeTask (NodeUid.from_pipeline_node pipeline node) true))) ∧
    (is_feasible_node node = true →
      st.contains_task_id (exec_node_task_id_from_pipeline_node pipeline node) = false →
      ((get_executions env node).filter is_execution_active).length ≠ 1 →
      maybe_enqueue_cancellation_task env pipeline node st = (false, st)) := by
  refine ⟨?_, ?_, ?_, ?_⟩
  · intro hf
    simp [maybe_enqueue_cancellation_task, hf]
  · intro hf hq
    simp [maybe_enqueue_cancellation_task, hf, hq]
  · intro hf hq hlen
    simp [maybe_enqueue_cancellation_task, hf, hq,
      generate_task_from_active_execution, hlen]
  · intro hf hq hlen
    simp [maybe_enqueue_cancellation_task, hf, hq,
      generate_task_from_active_execution, hlen]

/-- C2 witness: an infeasible node yields false and no enqueue. -/
theorem maybe_enqueue_cancellation_task_witness :
    maybe_enqueue_cancellation_task env0 pipe0 node_infeasible st0 = (false, st0) :=
  (maybe_enqueue_cancellation_task_spec env0 pipe0 node_infeasible st0).1 rfl

/-- C9: every public operation is wrapped by `_to_status_not_ok_error`, which
re-raises structured status errors unchanged and re-packages any other
exception as UNKNOWN with the original message preserved in the new
message. -/
theorem status_error_wrapping_spec :
    (∀ (α : Type) (fn_name : String) (e : StatusNotOkError),
      @to_status_not_ok_error α fn_name (.error (.statusNotOk e)) = .error e) ∧
    (∀ (α : Type) (fn_name msg : String),
      @to_status_not_ok_error α fn_name (.error (.other msg)) =
        .error ⟨Code.UNKNOWN, "`" ++ fn_name ++ "` error: " ++ msg⟩) ∧
    (∀ env st, generate_tasks env st =
      to_status_not_ok_error "generate_tasks" (generate_tasks_inner env st)) ∧
    (∀ r, initiate_pipeline_start r =
      to_status_not_ok_error "initiate_pipeline_start" (initiate_pipeline_start_inner r)) ∧
    (∀ env load_result s t f, stop_pipeline env load_result s t f =
      (stop_pipeline_inner env load_result s t f).map
        (to_status_not_ok_error "stop_pipeline")) ∧
    (∀ load_result uid, initiate_node_start load_result uid =
      to_status_not_ok_error "initiate_node_start"
        (initiate_node_start_inner load_result uid)) ∧
    (∀ env ps uid s t f, (stop_node env ps uid s t f).2 =
      ((stop_node_inner env ps uid s t f).2).map (to_status_not_ok_error "stop_node")) :=
  ⟨fun _ _ _ => rfl, fun _ _ _ => rfl, fun _ _ => rfl, fun _ => rfl,
   fun _ _ _ _ _ => rfl, fun _ _ => rfl, fun _ _ _ _ _ _ => rfl⟩

/-- C3: the tick classifies every loaded PipelineState into exactly one
class, stop-initiated first (regardless of execution state), else active
when the execution is NEW or RUNNING; a pipeline that is neither makes the
classification — and hence the whole tick — fail with INTERNAL, so the tick
never processes such a pipeline. -/
theorem classify_pipeline_states_spec (pss : List PipelineState) :
    ((∀ ps ∈ pss, ps.is_stop_initiated = true ∨ is_execution_active ps.execution = true) →
      classify_pipeline_states pss =
        .ok (pss.filter (fun ps => ps.is_stop_initiated),
             pss.filter (fun ps => !ps.is_stop_initiated && is_execution_active ps.execution))) ∧
    ((∃ ps ∈ pss, ps.is_stop_initiated = false ∧ is_execution_active ps.execution = false) →
      classify_pipeline_states pss = .error (.statusNotOk ⟨Code.INTERNAL, neither_message⟩)) ∧
    (∀ env st, get_pipeline_states env.contexts = .ok pss →
      (∃ ps ∈ pss, ps.is_stop_initiated = false ∧ is_execution_active ps.execution = false) →
      generate_tasks env st = .error ⟨Code.INTERNAL, neither_message⟩) := by
  refine ⟨classify_ok_of_valid pss, classify_error_of_invalid pss, ?_⟩
  intro env st hg hinv
  have hne : ¬(pss = []) := by
    rcases hinv with ⟨p, hp, _⟩
    intro hh
    subst hh
    simp at hp
  have hcl := classify_error_of_invalid pss hinv
  simp [generate_tasks, generate_tasks_inner, hg, except_bind_ok, hne, hcl,
    except_bind_error, to_status_not_ok_error]

/-- C3 witness: a single stop-initiated pipeline state is classified as
stop-initiated. -/
theorem classify_pipeline_states_witness :
    classify_pipeline_states [ps0] =
      .ok ([ps0].filter (fun ps => ps.is_stop_initiated),
           [ps0].filter (fun ps => !ps.is_stop_initiated && is_execution_active ps.execution)) :=
  (classify_pipeline_states_spec [ps0]).1 (by decide)

/-- C7: during the scan phase, a context whose load fails with NOT_FOUND is
skipped and the scan continues; a failure with any other code aborts the
whole tick with that error, so no pipeline is processed after the abort. -/
theorem scan_skip_not_found_spec :
    (∀ (contexts : List (Except StatusNotOkError PipelineState)),
      (∀ c ∈ contexts, ∀ err, c = Except.error err → err.code = Code.NOT_FOUND) →
      get_pipeline_states contexts = .ok (contexts.filterMap Except.toOption)) ∧
    (∀ (pre : List (Except StatusNotOkError PipelineState)) (e : StatusNotOkError)
        (suf : List (Except StatusNotOkError PipelineState)),
      (∀ c ∈ pre, ∀ err, c = Except.error err → err.code = Code.NOT_FOUND) →
      e.code ≠ Code.NOT_FOUND →
      get_pipeline_states (pre ++ Except.error e :: suf) = .error (.statusNotOk e)) ∧
    (∀ (env : Env) (st : OrchSt) (pre : List (Except StatusNotOkError PipelineState))
        (e : StatusNotOkError) (suf : List (Except StatusNotOkError PipelineState)),
      env.contexts = pre ++ Except.error e :: suf →
      (∀ c ∈ pre, ∀ err, c = Except.error err → err.code = Code.NOT_FOUND) →
      e.code ≠ Code.NOT_FOUND →
      generate_tasks env st = .error e) := by
  refine ⟨gps_ok_of_all_not_found, gps_abort_on_other, ?_⟩
  intro env st pre e suf hctx hall hne
  have habort := gps_abort_on_other pre e suf hall hne
  simp [generate_tasks, generate_tasks_inner, hctx, habort, except_bind_error,
    to_status_not_ok_error]

/-- C7 witness: a lone stale context failing with NOT_FOUND is skipped and
the scan succeeds with no pipeline states. -/
theorem scan_skip_not_found_witness :
    get_pipeline_states [Except.error ⟨Code.NOT_FOUND, "stale context"⟩] = .ok [] := by
  have h := scan_skip_not_found_spec.1 [Except.error ⟨Code.NOT_FOUND, "stale context"⟩]
    (by simp)
  simpa [Except.toOption] using h

/-- For an active execution, the assert condition of
`process_active_pipeline` does not fire. -/
theorem assert_cond_false (ps : PipelineState)
    (hactive : is_execution_active ps.execution = true) :
    ¬((!(ps.execution.last_known_state == ExecState.NEW ||
        ps.execution.last_known_state == ExecState.RUNNING)) = true) := by
  have h : (ps.execution.last_known_state == ExecState.NEW ||
      ps.execution.last_known_state == ExecState.RUNNING) = true := hactive
  simp [h]

/-- When the generator dispatch fails, `process_active_pipeline` of an
active pipeline propagates the failure. -/
theorem process_active_error_mode (env : Env) (ps : PipelineState) (st : OrchSt)
    (e : PyExn) (hactive : is_execution_active ps.execution = true)
    (hg : generator_for ps = .error e) :
    process_active_pipeline env ps st = .error e := by
  simp only [process_active_pipeline]
  rw [if_neg (assert_cond_false ps hactive), hg]

/-- Log decomposition of a successful `process_active_pipeline` run: the
optional NEW-to-RUNNING write, enqueue-only cancellation-sweep events, the
generator invocation event, and enqueue-only generated-task events. -/
theorem process_active_ok_log (env : Env) (ps : PipelineState) (st : OrchSt)
    (g : GeneratorChoice) (hactive : is_execution_active ps.execution = true)
    (hg : generator_for ps = .ok g) :
    ∃ st1 new1 new2,
      process_active_pipeline env ps st = .ok st1 ∧
      st1.log = (update_to_running ps st).log ++ new1 ++ Event.invokeGenerator g :: new2 ∧
      (∀ e ∈ new1, ∃ t, e = Event.enqueueTask t) ∧
      (∀ e ∈ new2, ∃ t, e = Event.enqueueTask t) := by
  have hpe : process_active_pipeline env ps st =
      .ok (enqueue_all
        (invoke_generator g (sweep_stop_initiated_nodes env ps.pipeline
          (get_stop_initiated_nodes ps) (update_to_running ps st)))
        (env.generate g (invoke_generator g (sweep_stop_initiated_nodes env ps.pipeline
          (get_stop_initiated_nodes ps) (update_to_running ps st))).queue_ids)) := by
    simp only [process_active_pipeline]
    rw [if_neg (assert_cond_false ps hactive), hg]
  obtain ⟨new1, h1, honly1⟩ := sweep_stop_initiated_log_extension env ps.pipeline
    (get_stop_initiated_nodes ps) (update_to_running ps st)
  obtain ⟨new2, h2, honly2⟩ := enqueue_all_log_extension
    (env.generate g (invoke_generator g (sweep_stop_initiated_nodes env ps.pipeline
      (get_stop_initiated_nodes ps) (update_to_running ps st))).queue_ids)
    (invoke_generator g (sweep_stop_initiated_nodes env ps.pipeline
      (get_stop_initiated_nodes ps) (update_to_running ps st)))
  refine ⟨_, new1, new2, hpe, ?_, honly1, honly2⟩
  rw [h2]
  simp only [invoke_generator]
  rw [h1]
  simp [List.append_assoc]

/-- C4: for every active pipeline whose execution is NEW at the start of the
tick, the RUNNING state is durably written to the metadata store before the
task generator is invoked; pipelines already RUNNING are not rewritten. -/
theorem active_new_to_running_spec (env : Env) (ps : PipelineState) (st st1 : OrchSt)
    (hok : process_active_pipeline env ps st = .ok st1) :
    (ps.execution.last_known_state = ExecState.NEW →
      ∃ tail g, st1.log = st.log ++
        Event.putExecution { ps.execution with last_known_state := ExecState.RUNNING } :: tail ∧
        Event.invokeGenerator g ∈ tail) ∧
    (ps.execution.last_known_state = ExecState.RUNNING →
      ∀ e ∈ st1.log.drop st.log.length, ∀ ex, e ≠ Event.putExecution ex) := by
  have hactive : is_execution_active ps.execution = true := by
    by_contra hna
    have hc2 : (!(ps.execution.last_known_state == ExecState.NEW ||
        ps.execution.last_known_state == ExecState.RUNNING)) = true := by
      simp only [Bool.not_eq_true] at hna
      have hb : (ps.execution.last_known_state == ExecState.NEW ||
          ps.execution.last_known_state == ExecState.RUNNING) = false := hna
      simp [hb]
    simp only [process_active_pipeline] at hok
    rw [if_pos hc2] at hok
    exact Except.noConfusion hok
  cases hgf : generator_for ps with
  | error e =>
    rw [process_active_error_mode env ps st e hactive hgf] at hok
    exact Except.noConfusion hok
  | ok g =>
    obtain ⟨st1', new1, new2, hpe, hlog, honly1, honly2⟩ :=
      process_active_ok_log env ps st g hactive hgf
    rw [hok] at hpe
    injection hpe with hpe'
    subst hpe'
    constructor
    · intro hnew
      have hup : (update_to_running ps st).log = st.log ++
          [Event.putExecution { ps.execution with last_known_state := ExecState.RUNNING }] := by
        simp [update_to_running, hnew, OrchSt.put_execution]
      refine ⟨new1 ++ Event.invokeGenerator g :: new2, g, ?_, by simp⟩
      rw [hlog, hup]
      simp [List.append_assoc]
    · intro hrun
      have hup : (update_to_running ps st).log = st.log := by
        simp [update_to_running, hrun]
      intro e he ex
      rw [hlog, hup, List.append_assoc, List.drop_left] at he
      rcases List.mem_append.mp he with h | h
      · obtain ⟨t, rfl⟩ := honly1 e h
        simp
      · rcases List.mem_cons.mp h with rfl | h'
        · simp
        · obtain ⟨t, rfl⟩ := honly2 e h'
          simp

/-- C4 witness: a SYNC pipeline in NEW state gets the RUNNING write before
the generator invocation. -/
theorem active_new_to_running_witness :
    process_active_pipeline env0 ps4 st0 = .ok st4w ∧
    ∃ tail g, st4w.log = st0.log ++
      Event.putExecution { ps4.execution with last_known_state := ExecState.RUNNING } :: tail ∧
      Event.invokeGenerator g ∈ tail :=
  ⟨rfl, (active_new_to_running_spec env0 ps4 st0 st4w rfl).1 rfl⟩

/-- C8: an active SYNC pipeline gets the SYNC generator, an active ASYNC
pipeline gets the ASYNC generator constructed with the set of
stop-initiated node ids, and any other execution mode makes the processing
fail with FAILED_PRECONDITION. -/
theorem generator_mode_spec (env : Env) (ps : PipelineState) (st : OrchSt)
    (hactive : is_execution_active ps.execution = true) :
    (ps.pipeline.execution_mode = ExecutionMode.SYNC →
      ∃ st1, process_active_pipeline env ps st = .ok st1 ∧
        Event.invokeGenerator (GeneratorChoice.sync ps.pipeline) ∈ st1.log) ∧
    (ps.pipeline.execution_mode = ExecutionMode.ASYNC →
      ∃ st1 ids, process_active_pipeline env ps st = .ok st1 ∧
        Event.invokeGenerator (GeneratorChoice.async ps.pipeline ids) ∈ st1.log ∧
        (∀ s, s ∈ ids ↔ ∃ n ∈ get_stop_initiated_nodes ps, n.node_info_id = s)) ∧
    (ps.pipeline.execution_mode ≠ ExecutionMode.SYNC →
      ps.pipeline.execution_mode ≠ ExecutionMode.ASYNC →
      process_active_pipeline env ps st =
        .error (.statusNotOk ⟨Code.FAILED_PRECONDITION, unsupported_mode_message⟩)) := by
  refine ⟨?_, ?_, ?_⟩
  · intro hm
    have hg : generator_for ps = .ok (.sync ps.pipeline) := by
      simp [generator_for, hm]
    obtain ⟨st1, new1, new2, hpe, hlog, _, _⟩ :=
      process_active_ok_log env ps st _ hactive hg
    exact ⟨st1, hpe, by rw [hlog]; simp⟩
  · intro hm
    have hg : generator_for ps = .ok (.async ps.pipeline
        (((get_stop_initiated_nodes ps).map (fun n => n.node_info_id)).dedup)) := by
      simp [generator_for, hm]
    obtain ⟨st1, new1, new2, hpe, hlog, _, _⟩ :=
      process_active_ok_log env ps st _ hactive hg
    refine ⟨st1, ((get_stop_initiated_nodes ps).map (fun n => n.node_info_id)).dedup,
      hpe, by rw [hlog]; simp, ?_⟩
    intro s
    simp [List.mem_dedup, List.mem_map]
  · intro h1 h2
    have hmode : ps.pipeline.execution_mode = ExecutionMode.UNSPECIFIED := by
      cases hm : ps.pipeline.execution_mode
      · exact absurd hm h1
      · exact absurd hm h2
      · rfl
    have hg : generator_for ps =
        .error (.statusNotOk ⟨Code.FAILED_PRECONDITION, unsupported_mode_message⟩) := by
      simp [generator_for, hmode]
    exact process_active_error_mode env ps st _ hactive hg

/-- C8 witness: an active SYNC pipeline gets the SYNC generator. -/
theorem generator_mode_witness :
    ∃ st1, process_active_pipeline env0 ps4 st0 = .ok st1 ∧
      Event.invokeGenerator (GeneratorChoice.sync ps4.pipeline) ∈ st1.log :=
  (generator_mode_spec env0 ps4 st0 (by decide)).1 rfl

/-- The polling loop terminates in one of exactly two ways: success, or the
DEADLINE_EXCEEDED status error. -/
theorem wait_poll_loop_shape (active_at : ℚ → Bool) (end_time i : ℚ) :
    ∀ (fuel : ℕ) (now : ℚ) (r : Except PyExn Unit),
      wait_poll_loop active_at end_time i now fuel = some r →
      r = .ok () ∨ r = .error (.statusNotOk ⟨Code.DEADLINE_EXCEEDED, timeout_message⟩) := by
  intro fuel
  induction fuel with
  | zero => intro now r h; simp [wait_poll_loop] at h
  | succ n ih =>
    intro now r h
    simp only [wait_poll_loop] at h
    by_cases hc : end_time - now > 0
    · rw [if_pos hc] at h
      by_cases ha : active_at now = true
      · rw [ha] at h
        rw [if_neg (by simp)] at h
        exact ih _ r h
      · have ha' : active_at now = false := by
          cases hb : active_at now
          · rfl
          · exact absurd hb ha
        rw [ha'] at h
        rw [if_pos (show (!false) = true from rfl)] at h
        injection h with h2
        exact Or.inl h2.symm
    · rw [if_neg hc] at h
      injection h with h2
      exact Or.inr h2.symm

/-- The polling loop succeeds exactly when some poll, taken at an integer
multiple of the polling interval past the start, happens before the
deadline and observes the record inactive. -/
theorem wait_poll_loop_ok_iff (active_at : ℚ → Bool) (end_time i : ℚ) (hi : 0 < i) :
    ∀ (fuel : ℕ) (now : ℚ) (r : Except PyExn Unit),
      wait_poll_loop active_at end_time i now fuel = some r →
      (r = .ok () ↔ ∃ k : ℕ, now + (k : ℚ) * i < end_time ∧
        active_at (now + (k : ℚ) * i) = false) := by
  intro fuel
  induction fuel with
  | zero => intro now r h; simp [wait_poll_loop] at h
  | succ n ih =>
    intro now r h
    simp only [wait_poll_loop] at h
    by_cases hc : end_time - now > 0
    · rw [if_pos hc] at h
      by_cases ha : active_at now = true
      · rw [ha] at h
        rw [if_neg (by simp)] at h
        rcases le_or_lt i (end_time - now) with hle | hlt
        · have hstep : now + max 0 (min i (end_time - now)) = now + i := by
            rw [min_eq_left hle, max_eq_right hi.le]
          rw [hstep] at h
          rw [ih (now + i) r h]
          constructor
          · rintro ⟨k, hk, hak⟩
            refine ⟨k + 1, ?_, ?_⟩
            · have heq : now + ((k : ℚ) + 1) * i = now + i + (k : ℚ) * i := by ring
              push_cast
              rw [heq]
              exact hk
            · have heq : now + ((k : ℚ) + 1) * i = now + i + (k : ℚ) * i := by ring
              push_cast
              rw [heq]
              exact hak
          · rintro ⟨k, hk, hak⟩
            cases k with
            | zero =>
              exfalso
              rw [Nat.cast_zero, zero_mul, add_zero] at hak
              rw [hak] at ha
              exact Bool.noConfusion ha
            | succ j =>
              refine ⟨j, ?_, ?_⟩
              · have heq : now + ((j : ℚ) + 1) * i = now + i + (j : ℚ) * i := by ring
                push_cast at hk
                rw [heq] at hk
                exact hk
              · have heq : now + ((j : ℚ) + 1) * i = now + i + (j : ℚ) * i := by ring
                push_cast at hak
                rw [heq] at hak
                exact hak
        · have hstep : now + max 0 (min i (end_time - now)) = end_time := by
            rw [min_eq_right hlt.le, max_eq_right hc.le]
            ring
          rw [hstep] at h
          have hiff := ih end_time r h
          have hrne : ¬r = .ok () := by
            intro hr
            obtain ⟨k, hk, -⟩ := hiff.mp hr
            have hknn : (0 : ℚ) ≤ (k : ℚ) * i := mul_nonneg (Nat.cast_nonneg k) hi.le
            linarith
          constructor
          · intro hr
            exact absurd hr hrne
          · rintro ⟨k, hk, hak⟩
            exfalso
            cases k with
            | zero =>
              rw [Nat.cast_zero, zero_mul, add_zero] at hak
              rw [hak] at ha
              exact Bool.noConfusion ha
            | succ j =>
              have hjnn : (0 : ℚ) ≤ (j : ℚ) * i := mul_nonneg (Nat.cast_nonneg j) hi.le
              have hexp : ((j : ℚ) + 1) * i = (j : ℚ) * i + i := by ring
              push_cast at hk
              rw [hexp] at hk
              linarith
      · have ha' : active_at now = false := by
          cases hb : active_at now
          · rfl
          · exact absurd hb ha
        rw [ha'] at h
        rw [if_pos (show (!false) = true from rfl)] at h
        injection h with h2
        constructor
        · intro _
          refine ⟨0, ?_, ?_⟩
          · rw [Nat.cast_zero, zero_mul, add_zero]
            linarith
          · rw [Nat.cast_zero, zero_mul, add_zero]
            exact ha'
        · intro _
          exact h2.symm
    · rw [if_neg hc] at h
      injection h with h2
      constructor
      · intro hr
        rw [← h2] at hr
        exact Except.noConfusion hr
      · rintro ⟨k, hk, -⟩
        exfalso
        have hknn : (0 : ℚ) ≤ (k : ℚ) * i := mul_nonneg (Nat.cast_nonneg k) hi.le
        push_neg at hc
        linarith

/-- C6: wait-for-inactivation polls at intervals of min(10 s, timeout/4);
with a positive timeout it succeeds exactly when some poll before the
deadline observes the execution inactive (in particular it succeeds when
the execution is already inactive), it fails immediately for non-positive
timeouts, and its only failure is DEADLINE_EXCEEDED. -/
theorem wait_for_inactivation_spec (active_at : ℚ → Bool)
    (start_time timeout_secs : ℚ) (fuel : ℕ) (r : Except StatusNotOkError Unit)
    (h : wait_for_inactivation active_at start_time timeout_secs fuel = some r) :
    (0 < timeout_secs →
      (r = .ok () ↔ ∃ k : ℕ,
        start_time + (k : ℚ) * min 10 (timeout_secs / 4) < start_time + timeout_secs ∧
        active_at (start_time + (k : ℚ) * min 10 (timeout_secs / 4)) = false)) ∧
    (timeout_secs ≤ 0 → r = .error ⟨Code.DEADLINE_EXCEEDED, timeout_message⟩) ∧
    (r = .ok () ∨ r = .error ⟨Code.DEADLINE_EXCEEDED, timeout_message⟩) ∧
    (active_at start_time = false → 0 < timeout_secs → r = .ok ()) := by
  simp only [wait_for_inactivation] at h
  obtain ⟨r0, hr0, hmap⟩ := Option.map_eq_some'.mp h
  have hr0loop : wait_poll_loop active_at (start_time + timeout_secs)
      (min 10 (timeout_secs / 4)) start_time fuel = some r0 := hr0
  have hshape := wait_poll_loop_shape active_at (start_time + timeout_secs)
    (min 10 (timeout_secs / 4)) fuel start_time r0 hr0loop
  have hrok : r = .ok () ↔ r0 = .ok () := by
    rcases hshape with h1 | h1 <;> subst h1 <;> rw [← hmap] <;>
      simp [to_status_not_ok_error]
  have hrerr : r0 = .error (.statusNotOk ⟨Code.DEADLINE_EXCEEDED, timeout_message⟩) →
      r = .error ⟨Code.DEADLINE_EXCEEDED, timeout_message⟩ := by
    intro h1
    rw [← hmap, h1]
    rfl
  refine ⟨?_, ?_, ?_, ?_⟩
  · intro ht
    have hi : 0 < min 10 (timeout_secs / 4) := lt_min (by norm_num) (by linarith)
    rw [hrok]
    exact wait_poll_loop_ok_iff active_at (start_time + timeout_secs)
      (min 10 (timeout_secs / 4)) hi fuel start_time r0 hr0loop
  · intro ht
    cases fuel with
    | zero => simp [wait_poll_loop] at hr0loop
    | succ n =>
      simp only [wait_poll_loop] at hr0loop
      rw [if_neg (by linarith : ¬start_time + timeout_secs - start_time > 0)] at hr0loop
      injection hr0loop with h2
      exact hrerr h2.symm
  · rcases hshape with h1 | h1
    · exact Or.inl (hrok.mpr h1)
    · exact Or.inr (hrerr h1)
  · intro hstart ht
    have hi : 0 < min 10 (timeout_secs / 4) := lt_min (by norm_num) (by linarith)
    rw [hrok]
    apply (wait_poll_loop_ok_iff active_at (start_time + timeout_secs)
      (min 10 (timeout_secs / 4)) hi fuel start_time r0 hr0loop).mpr
    refine ⟨0, ?_, ?_⟩
    · rw [Nat.cast_zero, zero_mul, add_zero]
      linarith
    · rw [Nat.cast_zero, zero_mul, add_zero]
      exact hstart

/-- C6 witness: an already-inactive execution with a positive timeout
succeeds on the first poll. -/
theorem wait_for_inactivation_eval :
    wait_for_inactivation (fun _ => false) 0 8 1 = some (.ok ()) := by
  norm_num [wait_for_inactivation, wait_for_inactivation_inner, wait_poll_loop,
    to_status_not_ok_error, Option.map]

theorem wait_for_inactivation_witness :
    wait_for_inactivation (fun _ => false) 0 8 1 = some (.ok ()) ∧
    ((Except.ok () : Except StatusNotOkError Unit) = .ok () ∨
      (Except.ok () : Except StatusNotOkError Unit) =
        .error ⟨Code.DEADLINE_EXCEEDED, timeout_message⟩) :=
  ⟨wait_for_inactivation_eval,
   (wait_for_inactivation_spec (fun _ => false) 0 8 1 (.ok ())
     wait_for_inactivation_eval).2.2.1⟩

/-- The wrapper name does not matter for results of the polling wait, whose
errors are always structured. -/
theorem wait_inner_map_wrap (active_at : ℚ → Bool) (start_time timeout_secs : ℚ)
    (fuel : ℕ) (fn_name : String) :
    (wait_for_inactivation_inner active_at start_time timeout_secs fuel).map
      (to_status_not_ok_error fn_name) =
    wait_for_inactivation active_at start_time timeout_secs fuel := by
  rw [wait_for_inactivation]
  cases hw : wait_for_inactivation_inner active_at start_time timeout_secs fuel with
  | none => rfl
  | some r0 =>
    have hw' : wait_poll_loop active_at (start_time + timeout_secs)
        (min 10 (timeout_secs / 4)) start_time fuel = some r0 := hw
    rcases wait_poll_loop_shape active_at (start_time + timeout_secs)
        (min 10 (timeout_secs / 4)) fuel start_time r0 hw' with h1 | h1 <;>
      subst h1 <;> rfl

/-- C5: `stop_node` fails with INTERNAL unless exactly one IR node matches
the node id (in which case the per-node stop flag is never set); after
calling `initiate_node_stop` it reads the node's executions and returns
immediately when none is active, fails with INTERNAL when more than one is
active, and otherwise waits (outside the lock) for the single active
execution to become inactive subject to the timeout. -/
theorem stop_node_spec (env : Env) (ps : PipelineState) (node_uid : NodeUid)
    (start_time timeout_secs : ℚ) (fuel : ℕ) :
    (((get_all_pipeline_nodes ps.pipeline).filter
        (fun n => n.node_info_id == node_uid.node_id)).length ≠ 1 →
      ∃ m, stop_node env ps node_uid start_time timeout_secs fuel =
        (false, some (.error ⟨Code.INTERNAL, m⟩))) ∧
    (∀ node, (get_all_pipeline_nodes ps.pipeline).filter
        (fun n => n.node_info_id == node_uid.node_id) = [node] →
      ((get_executions env node).filter is_execution_active = [] →
        stop_node env ps node_uid start_time timeout_secs fuel = (true, some (.ok ()))) ∧
      (∀ e, (get_executions env node).filter is_execution_active = [e] →
        stop_node env ps node_uid start_time timeout_secs fuel =
          (true, wait_for_inactivation (env.execActiveAt e.id) start_time timeout_secs fuel)) ∧
      (1 < ((get_executions env node).filter is_execution_active).length →
        ∃ m, stop_node env ps node_uid start_time timeout_secs fuel =
          (true, some (.error ⟨Code.INTERNAL, m⟩)))) := by
  constructor
  · intro hne
    cases hfil : (get_all_pipeline_nodes ps.pipeline).filter
        (fun n => n.node_info_id == node_uid.node_id) with
    | nil =>
      refine ⟨"stop_node operation failed, unable to find node to stop", ?_⟩
      simp [stop_node, stop_node_inner, hfil, to_status_not_ok_error]
    | cons a as =>
      cases as with
      | nil => exact absurd (by rw [hfil]; rfl) hne
      | cons b bs =>
        refine ⟨"stop_node operation failed, unable to find node to stop", ?_⟩
        simp [stop_node, stop_node_inner, hfil, to_status_not_ok_error]
  · intro node hfil
    refine ⟨?_, ?_, ?_⟩
    · intro hact
      simp [stop_node, stop_node_inner, hfil, hact, to_status_not_ok_error]
    · intro e hact
      have hbody : stop_node_inner env ps node_uid start_time timeout_secs fuel =
          (true, wait_for_inactivation_inner (env.execActiveAt e.id)
            start_time timeout_secs fuel) := by
        simp [stop_node_inner, hfil, hact]
      simp only [stop_node, hbody]
      rw [wait_inner_map_wrap]
    · intro hlen
      cases hact : (get_executions env node).filter is_execution_active with
      | nil => rw [hact] at hlen; simp at hlen
      | cons a as =>
        cases as with
        | nil => rw [hact] at hlen; simp at hlen
        | cons b bs =>
          refine ⟨"Unexpected multiple active executions for node", ?_⟩
          simp [stop_node, stop_node_inner, hfil, hact, to_status_not_ok_error]

/-- C5 witness: a node uid matching no IR node fails with INTERNAL without
setting the stop flag. -/
theorem stop_node_witness :
    ∃ m, stop_node env0 ps0 ⟨"pipeline1", "Trainer"⟩ 0 1 1 =
      (false, some (.error ⟨Code.INTERNAL, m⟩)) :=
  (stop_node_spec env0 ps0 ⟨"pipeline1", "Trainer"⟩ 0 1 1).1 (by decide)

/-- The generator dispatch only ever fails with the structured
FAILED_PRECONDITION error. -/
theorem generator_for_error_shape (ps : PipelineState) (e : PyExn)
    (h : generator_for ps = .error e) :
    e = .statusNotOk ⟨Code.FAILED_PRECONDITION, unsupported_mode_message⟩ := by
  simp only [generator_for] at h
  cases hm : ps.pipeline.execution_mode <;> rw [hm] at h
  · exact Except.noConfusion h
  · exact Except.noConfusion h
  · injection h with h2
    exact h2.symm

/-- The scan only ever fails with structured status errors. -/
theorem gps_error_statusNotOk :
    ∀ (cs : List (Except StatusNotOkError PipelineState)) (x : PyExn),
      get_pipeline_states cs = .error x → ∃ e, x = PyExn.statusNotOk e := by
  intro cs
  induction cs with
  | nil => intro x h; simp [get_pipeline_states] at h
  | cons c rest ih =>
    intro x h
    cases c with
    | error err =>
      simp only [get_pipeline_states] at h
      by_cases hc : (err.code == Code.NOT_FOUND) = true
      · rw [if_pos hc] at h
        exact ih x h
      · rw [if_neg hc] at h
        injection h with h2
        exact ⟨err, h2.symm⟩
    | ok ps =>
      simp only [get_pipeline_states] at h
      cases hrest : get_pipeline_states rest with
      | error y =>
        rw [hrest] at h
        simp only [except_bind_error] at h
        injection h with h2
        subst h2
        exact ih y hrest
      | ok r =>
        rw [hrest] at h
        simp only [except_bind_ok] at h
        exact Except.noConfusion h

/-- Classification only ever fails with structured status errors. -/
theorem classify_error_statusNotOk :
    ∀ (pss : List PipelineState) (x : PyExn),
      classify_pipeline_states pss = .error x → ∃ e, x = PyExn.statusNotOk e := by
  intro pss
  induction pss with
  | nil => intro x h; simp [classify_pipeline_states] at h
  | cons ps rest ih =>
    intro x h
    simp only [classify_pipeline_states] at h
    by_cases hs : ps.is_stop_initiated = true
    · rw [if_pos hs] at h
      cases hrest : classify_pipeline_states rest with
      | error y =>
        rw [hrest] at h
        simp only [except_bind_error] at h
        injection h with h2
        subst h2
        exact ih y hrest
      | ok r =>
        rw [hrest] at h
        simp only [except_bind_ok] at h
        exact Except.noConfusion h
    · rw [if_neg hs] at h
      by_cases ha : is_execution_active ps.execution = true
      · rw [if_pos ha] at h
        cases hrest : classify_pipeline_states rest with
        | error y =>
          rw [hrest] at h
          simp only [except_bind_error] at h
          injection h with h2
          subst h2
          exact ih y hrest
        | ok r =>
          rw [hrest] at h
          simp only [except_bind_ok] at h
          exact Except.noConfusion h
      · rw [if_neg ha] at h
        injection h with h2
        exact ⟨⟨Code.INTERNAL, neither_message⟩, h2.symm⟩

/-- Processing one active pipeline only ever fails with structured status
errors. -/
theorem process_active_pipeline_error_statusNotOk (env : Env) (ps : PipelineState)
    (st : OrchSt) (x : PyExn) (hactive : is_execution_active ps.execution = true)
    (h : process_active_pipeline env ps st = .error x) :
    ∃ e, x = PyExn.statusNotOk e := by
  cases hg : generator_for ps with
  | ok g =>
    obtain ⟨st1, new1, new2, hpe, -, -, -⟩ := process_active_ok_log env ps st g hactive hg
    rw [hpe] at h
    exact Except.noConfusion h
  | error e =>
    rw [process_active_error_mode env ps st e hactive hg] at h
    injection h with h2
    subst h2
    exact ⟨⟨Code.FAILED_PRECONDITION, unsupported_mode_message⟩,
      generator_for_error_shape ps _ hg⟩

/-- Processing a list of active pipelines only ever fails with structured
status errors. -/
theorem process_active_pipelines_error_statusNotOk (env : Env) :
    ∀ (l : List PipelineState) (st : OrchSt) (x : PyExn),
      (∀ ps ∈ l, is_execution_active ps.execution = true) →
      process_active_pipelines env l st = .error x →
      ∃ e, x = PyExn.statusNotOk e := by
  intro l
  induction l with
  | nil => intro st x _ h; simp [process_active_pipelines] at h
  | cons ps rest ih =>
    intro st x hall h
    have hactive := hall ps (List.mem_cons_self _ _)
    simp only [process_active_pipelines] at h
    cases hone : process_active_pipeline env ps st with
    | error e =>
      rw [hone] at h
      simp only [except_bind_error] at h
      injection h with h2
      subst h2
      exact process_active_pipeline_error_statusNotOk env ps st e hactive hone
    | ok st1 =>
      rw [hone] at h
      simp only [except_bind_ok] at h
      exact ih st1 x (fun p hp => hall p (List.mem_cons_of_mem _ hp)) h

/-- C10: the assertion in the active-pipeline processing step (that every
pipeline state it receives has an execution in NEW or RUNNING) always holds
when reached through `generate_tasks`: every failure of the tick body is a
structured status error, never the assert's non-status exception, because
classification admits only active pipeline states into the active list. -/
theorem active_assert_unreachable (env : Env) (st : OrchSt) (x : PyExn)
    (h : generate_tasks_inner env st = .error x) :
    ∃ e, x = PyExn.statusNotOk e := by
  simp only [generate_tasks_inner] at h
  cases hg : get_pipeline_states env.contexts with
  | error y =>
    rw [hg] at h
    simp only [except_bind_error] at h
    injection h with h2
    subst h2
    exact gps_error_statusNotOk env.contexts y hg
  | ok pss =>
    rw [hg] at h
    simp only [except_bind_ok] at h
    by_cases hemp : pss.isEmpty = true
    · rw [if_pos hemp] at h
      exact Except.noConfusion h
    · rw [if_neg hemp] at h
      cases hcl : classify_pipeline_states pss with
      | error y =>
        rw [hcl] at h
        simp only [except_bind_error] at h
        injection h with h2
        subst h2
        exact classify_error_statusNotOk pss y hcl
      | ok r =>
        rw [hcl] at h
        simp only [except_bind_ok] at h
        exact process_active_pipelines_error_statusNotOk env r.2 _ x
          (classify_active_sound pss r hcl) h

/-- C10 witness: a tick over a pipeline that is neither active nor
stop-initiated fails with a structured INTERNAL error, not the assert. -/
theorem active_assert_unreachable_witness :
    ∃ e, PyExn.statusNotOk ⟨Code.INTERNAL, neither_message⟩ = PyExn.statusNotOk e :=
  active_assert_unreachable env10 st0
    (PyExn.statusNotOk ⟨Code.INTERNAL, neither_message⟩) rfl

end TfxCore
